import Mathlib

/-!
Shallow embedding of `field_observatory_s3.py` (class `FOBucket` and the two
module-level helpers).  JSON documents are modelled by the inductive `PyVal`;
the S3 bucket is a list of key/parsed-document pairs; every fallible Python
operation (subscript, iteration, date parsing, object fetch) returns
`Except PyErr`.
-/

/-- Python runtime errors that the embedded code can raise. -/
inductive PyErr where
  | keyError (k : String)
  | typeError
  | valueError (msg : String)
  | clientError
  | unboundLocalError
deriving DecidableEq, Repr

/-- A parsed JSON / Python value: None, bool, number (floats in the data are
exactly representable, so `Rat` is used), string, list, or dict (an ordered
association list with unique keys, as produced by the JSON parser). -/
inductive PyVal where
  | none : PyVal
  | bool (b : Bool) : PyVal
  | num (q : Rat) : PyVal
  | str (s : String) : PyVal
  | list (l : List PyVal) : PyVal
  | dict (l : List (String × PyVal)) : PyVal

mutual

/-- Python equality on values: numbers compare by value (bools count as 0/1),
strings by content, lists pointwise, dicts by key set and per-key values;
values of unrelated types are unequal and None equals only None. -/
def pyEq : PyVal → PyVal → Bool
  | .none, .none => true
  | .bool a, .bool b => a == b
  | .bool a, .num q => (if a then (1 : Rat) else 0) == q
  | .num q, .bool b => q == (if b then (1 : Rat) else 0)
  | .num a, .num b => a == b
  | .str a, .str b => a == b
  | .list a, .list b => pyEqList a b
  | .dict a, .dict b => a.length == b.length && pyEqDictSub a b
  | _, _ => false

/-- Pointwise Python equality of two lists of values. -/
def pyEqList : List PyVal → List PyVal → Bool
  | [], [] => true
  | a :: as, b :: bs => pyEq a b && pyEqList as bs
  | _ :: _, [] => false
  | [], _ :: _ => false

/-- Every key of the first dict is present in the second with a Python-equal
value (the enclosing length check makes this dict equality). -/
def pyEqDictSub : List (String × PyVal) → List (String × PyVal) → Bool
  | [], _ => true
  | (k, v) :: rest, b =>
    (match b.lookup k with
     | some w => pyEq v w
     | Option.none => false) && pyEqDictSub rest b

end

/-- Python subscript `v[k]` with a string key: dict lookup raising KeyError on
a missing key; any non-dict raises TypeError for a string subscript. -/
def PyVal.getItem : PyVal → String → Except PyErr PyVal
  | .dict l, k =>
    match l.lookup k with
    | some v => .ok v
    | Option.none => .error (.keyError k)
  | _, _ => .error .typeError

/-- Python membership `k in v` for a string `k`: key containment for dicts,
element containment for lists, substring test for strings; other receivers
raise TypeError. -/
def PyVal.containsKey : PyVal → String → Except PyErr Bool
  | .dict l, k => .ok (l.lookup k).isSome
  | .list l, k => .ok (l.any (fun v => pyEq v (.str k)))
  | .str s, k => .ok (decide (List.IsInfix k.toList s.toList))
  | _, _ => .error .typeError

/-- Python iteration `for x in v`: lists yield elements, strings yield
one-character strings, dicts yield their keys; other values raise TypeError. -/
def PyVal.asIterable : PyVal → Except PyErr (List PyVal)
  | .list l => .ok l
  | .str s => .ok (s.toList.map fun c => .str (String.mk [c]))
  | .dict l => .ok (l.map fun kv => .str kv.1)
  | _ => .error .typeError

/-- Python str.startsWith / String.startsWith, as a structural prefix test
on the character lists. -/
def strStartsWith (s pfx : String) : Bool :=
  pfx.toList.isPrefixOf s.toList

/-- Python str.endswith / String.endsWith, as a structural suffix test on
the character lists. -/
def strEndsWith (s sfx : String) : Bool :=
  sfx.toList.isSuffixOf s.toList

/-- Python str.replace for the single-character pattern the source uses:
field_id.replace("_", "/") substitutes a slash for every underscore. -/
def replaceUnderscores (field_id : String) : String :=
  String.mk (field_id.toList.map (fun c => if c = '_' then '/' else c))

/-- Splits a character list at every occurrence of the separator character
(the behaviour of str.split / String.splitOn for the one-character
separators the date strings use). -/
def splitOnChar (sep : Char) : List Char → List (List Char)
  | [] => [[]]
  | c :: rest =>
    let r := splitOnChar sep rest
    if c = sep then [] :: r
    else
      match r with
      | [] => [[c]]
      | h :: t => (c :: h) :: t

/-- Reads a decimal digit sequence left to right. -/
def digitsToNatAux : List Char → Nat → Option Nat
  | [], acc => some acc
  | c :: rest, acc =>
    if c.isDigit then digitsToNatAux rest (acc * 10 + (c.toNat - 48))
    else Option.none

/-- Parses a nonempty all-digit character list as a natural number
(String.toNat? on the list of characters). -/
def digitsToNat? : List Char → Option Nat
  | [] => Option.none
  | c :: rest => digitsToNatAux (c :: rest) 0

/-- Module constant: key of the shared boundary GeoJSON document. -/
def FO_BLOCK_GEOJSON : String := "fieldobs_blocks_translated.geojson"

/-- Class constant: bucket endpoint URL. -/
def FO_BUCKET_ENDPOINT : String := "https://data.lit.fmi.fi"

/-- Class constant: bucket name. -/
def FO_BUCKET_NAME : String := "field-observatory"

/-- The endpoint host: the source computes it per call as
FO_BUCKET_ENDPOINT.split("https://")[1], which on the fixed endpoint
constant yields this string. -/
def endPointHost : String := "data.lit.fmi.fi"

/-- The public URL derived for an object key in list_files. -/
def objectUrl (key : String) : String :=
  "https://" ++ FO_BUCKET_NAME ++ "." ++ endPointHost ++ "/" ++ key

/-- os.path.join for a relative second component. -/
def osPathJoin (a b : String) : String :=
  if a = "" then b else if strEndsWith a "/" then a ++ b else a ++ "/" ++ b

/-- The S3 bucket, modelled as the ordered list of its objects: each key paired
with the parsed JSON body of the stored document. -/
structure FOBucketState where
  objects : List (String × PyVal)

/-- FOBucket.list_files: keys of the bucket objects under the given prefix,
returned either bare or as derived public URLs. -/
def list_files (st : FOBucketState) (pfx : String) (return_key : Bool) : List String :=
  ((st.objects.map Prod.fst).filter (fun k => strStartsWith k pfx)).map
    (fun k => if return_key then k else objectUrl k)

/-- FOBucket.get_events: build the field prefix by replacing underscores with
slashes, list the keys under it, and fetch and parse events.json when it is
listed; otherwise report no events (None). -/
def get_events (st : FOBucketState) (field_id : String) : Option PyVal :=
  let pfx := replaceUnderscores field_id
  let field_files := list_files st pfx true
  let events_file := osPathJoin pfx "events.json"
  if events_file ∈ field_files then st.objects.lookup events_file else Option.none

/-- The subscript chain events["management"]["events"], followed by the
iteration over the resulting collection that each accessor performs. -/
def getManagementEvents (events : PyVal) : Except PyErr (List PyVal) := do
  let mg ← events.getItem "management"
  let evs ← mg.getItem "events"
  evs.asIterable

/-- The shared skeleton of the accessor loops: process the management events
in order, each event either raising, being skipped, or contributing one
element to the result list. -/
def perEvent (f : PyVal → Except PyErr (Option β)) : List PyVal → Except PyErr (List β)
  | [] => .ok []
  | e :: rest => do
    let b? ← f e
    match b? with
    | Option.none => perEvent f rest
    | some b => do
      let tail ← perEvent f rest
      pure (b :: tail)

/-- Loop body of FOBucket.get_harvest_dates over the management events. -/
def harvestDatesBody (e : PyVal) : Except PyErr (Option PyVal) := do
  let op ← e.getItem "mgmt_operations_event"
  if pyEq op (.str "harvest") then do
    let d ← e.getItem "date"
    pure (some d)
  else
    pure Option.none

/-- The loop of FOBucket.get_harvest_dates. -/
def harvestDatesLoop : List PyVal → Except PyErr (List PyVal) :=
  perEvent harvestDatesBody

/-- FOBucket.get_harvest_dates. -/
def get_harvest_dates (st : FOBucketState) (field_id : String) :
    Except PyErr (List PyVal) :=
  match get_events st field_id with
  | Option.none => .ok []
  | some events => do
    let l ← getManagementEvents events
    harvestDatesLoop l

/-- Loop body of FOBucket.get_mowing_dates over the management events. -/
def mowingDatesBody (e : PyVal) : Except PyErr (Option PyVal) := do
  let op ← e.getItem "mgmt_operations_event"
  if pyEq op (.str "mowing") then do
    let d ← e.getItem "date"
    pure (some d)
  else
    pure Option.none

/-- The loop of FOBucket.get_mowing_dates. -/
def mowingDatesLoop : List PyVal → Except PyErr (List PyVal) :=
  perEvent mowingDatesBody

/-- FOBucket.get_mowing_dates. -/
def get_mowing_dates (st : FOBucketState) (field_id : String) :
    Except PyErr (List PyVal) :=
  match get_events st field_id with
  | Option.none => .ok []
  | some events => do
    let l ← getManagementEvents events
    mowingDatesLoop l

/-- One species-change entry produced by get_species_events. -/
structure SpeciesEvent where
  date : PyVal
  species : PyVal
  event_type : PyVal

/-- The species resolution of FOBucket.get_species_events: harvest events
read harvest_crop unconditionally, mowing events fall back to the literal
string "-99.0" when moved_crop is missing, other discriminators yield no
species (the continue). -/
def speciesSel (e op : PyVal) : Except PyErr (Option PyVal) :=
  if pyEq op (.str "harvest") then do
    let s ← e.getItem "harvest_crop"
    pure (some s)
  else if pyEq op (.str "mowing") then do
    let hasMoved ← e.containsKey "moved_crop"
    if hasMoved then do
      let s ← e.getItem "moved_crop"
      pure (some s)
    else
      pure (some (PyVal.str "-99.0"))
  else
    pure Option.none

/-- Loop body of FOBucket.get_species_events, one event at a time: resolve
the species (the if/elif chain above), skip foreign discriminators, and
build the species entry. -/
def speciesEventsBody (e : PyVal) : Except PyErr (Option SpeciesEvent) := do
  let op ← e.getItem "mgmt_operations_event"
  let species? ← speciesSel e op
  match species? with
  | Option.none => pure Option.none
  | some species => do
    let d ← e.getItem "date"
    pure (some { date := d, species := species, event_type := op })

/-- The loop of FOBucket.get_species_events. -/
def speciesEventsLoop : List PyVal → Except PyErr (List SpeciesEvent) :=
  perEvent speciesEventsBody

/-- FOBucket.get_species_events. -/
def get_species_events (st : FOBucketState) (field_id : String) :
    Except PyErr (List SpeciesEvent) :=
  match get_events st field_id with
  | Option.none => .ok []
  | some events => do
    let l ← getManagementEvents events
    speciesEventsLoop l

/-- The amount selection of FOBucket.get_harvest_amounts: the "_total"
amount field is consulted first, then the bare field; neither present means
no amount (the continue of the loop body). -/
def selectRawAmount (e : PyVal) : Except PyErr (Option PyVal) := do
  let hasTotal ← e.containsKey "harvest_yield_harvest_dw_total"
  if hasTotal then do
    let a ← e.getItem "harvest_yield_harvest_dw_total"
    pure (some a)
  else do
    let hasBare ← e.containsKey "harvest_yield_harvest_dw"
    if hasBare then do
      let a ← e.getItem "harvest_yield_harvest_dw"
      pure (some a)
    else
      pure Option.none

/-- Loop body of FOBucket.get_harvest_amounts, one event at a time: select
the raw amount (the if/elif above, skipping when neither field is present)
and map an amount equal to -99.0 (number) or "-99.0" (string) to None. -/
def harvestAmountsBody (e : PyVal) : Except PyErr (Option PyVal) := do
  let op ← e.getItem "mgmt_operations_event"
  if pyEq op (.str "harvest") then do
    let amount? ← selectRawAmount e
    match amount? with
    | Option.none => pure Option.none
    | some amount =>
      pure (some
        (if pyEq amount (.num (-99)) || pyEq amount (.str "-99.0") then PyVal.none
         else amount))
  else
    pure Option.none

/-- The loop of FOBucket.get_harvest_amounts. -/
def harvestAmountsLoop : List PyVal → Except PyErr (List PyVal) :=
  perEvent harvestAmountsBody

/-- FOBucket.get_harvest_amounts. -/
def get_harvest_amounts (st : FOBucketState) (field_id : String) :
    Except PyErr (List PyVal) :=
  match get_events st field_id with
  | Option.none => .ok []
  | some events => do
    let l ← getManagementEvents events
    harvestAmountsLoop l

/-- One entry of get_harvest_info / get_mowings_as_harvest_info: the dict
with keys date, amount and event_type built by the loop body. -/
structure HarvestEntry where
  date : PyVal
  amount : PyVal
  event_type : String

/-- The amount selection of FOBucket.get_harvest_info: the "_total" amount
field is consulted first, then the bare field, defaulting to None when
neither is present. -/
def selectInfoAmount (e : PyVal) : Except PyErr PyVal := do
  let hasTotal ← e.containsKey "harvest_yield_harvest_dw_total"
  if hasTotal then
    e.getItem "harvest_yield_harvest_dw_total"
  else do
    let hasBare ← e.containsKey "harvest_yield_harvest_dw"
    if hasBare then
      e.getItem "harvest_yield_harvest_dw"
    else
      pure PyVal.none

/-- Loop body of FOBucket.get_harvest_info, one event at a time: one entry
per harvest event, with the amount defaulting to None when neither amount
field is present and the string "-99.0" (only the string form) mapped to
None afterwards. -/
def harvestInfoBody (e : PyVal) : Except PyErr (Option HarvestEntry) := do
  let op ← e.getItem "mgmt_operations_event"
  if pyEq op (.str "harvest") then do
    let d ← e.getItem "date"
    let amount ← selectInfoAmount e
    let amount := if pyEq amount (.str "-99.0") then PyVal.none else amount
    pure (some { date := d, amount := amount, event_type := "harvest" })
  else
    pure Option.none

/-- The loop of FOBucket.get_harvest_info. -/
def harvestInfoLoop : List PyVal → Except PyErr (List HarvestEntry) :=
  perEvent harvestInfoBody

/-- FOBucket.get_harvest_info. -/
def get_harvest_info (st : FOBucketState) (field_id : String) :
    Except PyErr (List HarvestEntry) :=
  match get_events st field_id with
  | Option.none => .ok []
  | some events => do
    let l ← getManagementEvents events
    harvestInfoLoop l

/-- Loop body of FOBucket.get_mowings_as_harvest_info. -/
def mowingsInfoBody (e : PyVal) : Except PyErr (Option HarvestEntry) := do
  let op ← e.getItem "mgmt_operations_event"
  if pyEq op (.str "mowing") then do
    let d ← e.getItem "date"
    pure (some { date := d, amount := PyVal.none, event_type := "mowing" })
  else
    pure Option.none

/-- The loop of FOBucket.get_mowings_as_harvest_info. -/
def mowingsInfoLoop : List PyVal → Except PyErr (List HarvestEntry) :=
  perEvent mowingsInfoBody

/-- FOBucket.get_mowings_as_harvest_info. -/
def get_mowings_as_harvest_info (st : FOBucketState) (field_id : String) :
    Except PyErr (List HarvestEntry) :=
  match get_events st field_id with
  | Option.none => .ok []
  | some events => do
    let l ← getManagementEvents events
    mowingsInfoLoop l

/-- Loop body of FOBucket.get_observation_events: the raw event records whose
discriminator equals "observation". -/
def observationEventsBody (e : PyVal) : Except PyErr (Option PyVal) := do
  let op ← e.getItem "mgmt_operations_event"
  if pyEq op (.str "observation") then
    pure (some e)
  else
    pure Option.none

/-- The loop of FOBucket.get_observation_events. -/
def observationEventsLoop : List PyVal → Except PyErr (List PyVal) :=
  perEvent observationEventsBody

/-- FOBucket.get_observation_events. -/
def get_observation_events (st : FOBucketState) (field_id : String) :
    Except PyErr (List PyVal) :=
  match get_events st field_id with
  | Option.none => .ok []
  | some events => do
    let l ← getManagementEvents events
    observationEventsLoop l

/-- One aboveground-biomass entry of get_AGB_observations: the dict with keys
date and "AGB (gC/m2)". -/
structure AGBEntry where
  date : PyVal
  agb : PyVal

/-- Loop body of FOBucket.get_AGB_observations, with the short-circuit
evaluation order of the Python condition: observation_type present, equal to
observation_type_vegetation, tops_C present, tops_C not the string "-99.0". -/
def agbBody (e : PyVal) : Except PyErr (Option AGBEntry) := do
  let keep ← do
    let hasType ← e.containsKey "observation_type"
    if hasType then do
      let ot ← e.getItem "observation_type"
      if pyEq ot (.str "observation_type_vegetation") then do
        let hasTops ← e.containsKey "tops_C"
        if hasTops then do
          let tc ← e.getItem "tops_C"
          pure (!(pyEq tc (.str "-99.0")))
        else
          pure false
      else
        pure false
    else
      pure false
  if keep then do
    let d ← e.getItem "date"
    let tc ← e.getItem "tops_C"
    pure (some { date := d, agb := tc })
  else
    pure Option.none

/-- The loop of FOBucket.get_AGB_observations over the observation events. -/
def agbLoop : List PyVal → Except PyErr (List AGBEntry) :=
  perEvent agbBody

/-- FOBucket.get_AGB_observations: filters the observation events. -/
def get_AGB_observations (st : FOBucketState) (field_id : String) :
    Except PyErr (List AGBEntry) := do
  let obs ← get_observation_events st field_id
  agbLoop obs

/-- A calendar instant as produced by pandas to_datetime (to the resolution
the data uses). -/
structure PyDateTime where
  year : Nat
  month : Nat
  day : Nat
  hour : Nat
  minute : Nat
  second : Nat
deriving DecidableEq, Repr

/-- Splits an ISO-like datetime character list into its date part and
optional time part (separator T or a single space). -/
def splitDateTimeChars (l : List Char) : List Char × Option (List Char) :=
  match splitOnChar 'T' l with
  | [d, t] => (d, some t)
  | _ =>
    match splitOnChar ' ' l with
    | [d, t] => (d, some t)
    | _ => (l, Option.none)

/-- Parses an HH:MM or HH:MM:SS time-of-day string. -/
def parseTimeOfDay (t : List Char) : Option (Nat × Nat × Nat) :=
  match splitOnChar ':' t with
  | [h, m, s] => do
    let hh ← digitsToNat? h
    let mm ← digitsToNat? m
    let ss ← digitsToNat? s
    if hh < 24 ∧ mm < 60 ∧ ss < 60 then some (hh, mm, ss) else Option.none
  | [h, m] => do
    let hh ← digitsToNat? h
    let mm ← digitsToNat? m
    if hh < 24 ∧ mm < 60 then some (hh, mm, 0) else Option.none
  | _ => Option.none

/-- Parses a YYYY-MM-DD date string with an optional time-of-day component,
the time defaulting to midnight, so that a bare date and the same date with
an explicit midnight compare equal as instants. -/
def parseDatetimeStr (s : String) : Option PyDateTime :=
  let (d, t?) := splitDateTimeChars s.toList
  match splitOnChar '-' d with
  | [y, m, dd] => do
    let yy ← digitsToNat? y
    let mm ← digitsToNat? m
    let d2 ← digitsToNat? dd
    if 1 ≤ mm ∧ mm ≤ 12 ∧ 1 ≤ d2 ∧ d2 ≤ 31 then
      match t? with
      | Option.none => some ⟨yy, mm, d2, 0, 0, 0⟩
      | some t => do
        let (hh, mi, ss) ← parseTimeOfDay t
        some ⟨yy, mm, d2, hh, mi, ss⟩
    else
      Option.none
  | _ => Option.none

/-- pandas to_datetime, modelled on the ISO-8601-style date and date-time
strings the repository data uses: a valid string parses to a calendar
instant and anything else raises. -/
def pdToDatetime : PyVal → Except PyErr PyDateTime
  | .str s =>
    match parseDatetimeStr s with
    | some dt => .ok dt
    | Option.none => .error (.valueError ("could not parse datetime " ++ s))
  | _ => .error .typeError

/-- Loop body of FOBucket.get_harvest_amount: the running amount is
overwritten on every iteration, with the amount of a date-matching entry
(string sentinel again mapped to None) and with None on every non-matching
entry, so only the final entry determines the result. -/
def harvestAmountScan (date : String) (amount : PyVal) :
    List HarvestEntry → Except PyErr PyVal
  | [] => .ok amount
  | e :: rest => do
    let ed ← pdToDatetime e.date
    let qd ← pdToDatetime (.str date)
    if ed = qd then
      let a := e.amount
      let a := if pyEq a (.str "-99.0") then PyVal.none else e.amount
      harvestAmountScan date a rest
    else
      harvestAmountScan date PyVal.none rest

/-- FOBucket.get_harvest_amount. -/
def get_harvest_amount (st : FOBucketState) (field_id date : String) :
    Except PyErr PyVal := do
  let hes ← get_harvest_info st field_id
  harvestAmountScan date PyVal.none hes

/-- Loop body of FOBucket.get_event_type: events without a date key are
skipped, a date-matching event overwrites the running event type with its
discriminator, and a non-matching event leaves it unchanged. -/
def eventTypeScan (date : String) (event_type : PyVal) :
    List PyVal → Except PyErr PyVal
  | [] => .ok event_type
  | e :: rest => do
    let hasDate ← e.containsKey "date"
    if hasDate then do
      let dv ← e.getItem "date"
      let ed ← pdToDatetime dv
      let qd ← pdToDatetime (.str date)
      if ed = qd then do
        let t ← e.getItem "mgmt_operations_event"
        eventTypeScan date t rest
      else
        eventTypeScan date event_type rest
    else
      eventTypeScan date event_type rest

/-- FOBucket.get_event_type: returns the empty list when the field has no
events document (the literal behaviour of the source), otherwise the running
event type after the scan (None when nothing matched). -/
def get_event_type (st : FOBucketState) (field_id date : String) :
    Except PyErr PyVal :=
  match get_events st field_id with
  | Option.none => .ok (.list [])
  | some events => do
    let l ← getManagementEvents events
    eventTypeScan date PyVal.none l

/-- The combined table produced by the timeseries assembler, abstracted to
the list of source files it concatenates (their tabular content is
irrelevant to the claims about this component). -/
structure DataFrame where
  source_files : List String

/-- Module function csv_files. -/
def csv_files (files : List String) : List String :=
  files.filter (fun f => strEndsWith f ".csv")

/-- Module function read_files_to_dataframe: with no files the loop never
binds df and the subsequent df.columns access raises UnboundLocalError;
otherwise the files are read and concatenated (abstracted to the file
list). -/
def read_files_to_dataframe (files : List String) : Except PyErr DataFrame :=
  match files with
  | [] => .error .unboundLocalError
  | _ => .ok { source_files := files }

/-- FOBucket.get_timeseries_data: declared with the single parameter
prefix. -/
def get_timeseries_data (st : FOBucketState) (pfx : String) :
    Except PyErr DataFrame :=
  read_files_to_dataframe (csv_files (list_files st pfx false))

/-- CPython call semantics for a method declared with exactly one positional
parameter (besides self), applied to a list of positional arguments: an
arity mismatch raises TypeError before the body runs. -/
def callWithOneParam (f : String → Except PyErr α) :
    List String → Except PyErr α
  | [a] => f a
  | _ => .error .typeError

/-- FOBucket.get_field_timeseries_data: builds the prefix and then performs
the call self.get_timeseries_data(prefix, data_type) with two positional
arguments. -/
def get_field_timeseries_data (st : FOBucketState) (field_id data_type : String) :
    Except PyErr DataFrame :=
  let pfx := replaceUnderscores field_id ++ "/" ++ data_type
  callWithOneParam (get_timeseries_data st) [pfx, data_type]

/-- FOBucket.read_block_geojson: fetch and parse the shared boundary
document by its fixed key; a missing object surfaces as the blob-store
client error. -/
def read_block_geojson (st : FOBucketState) : Except PyErr PyVal :=
  match st.objects.lookup FO_BLOCK_GEOJSON with
  | some v => .ok v
  | Option.none => .error .clientError

/-- Loop body of FOBucket.get_field_information: linear scan for the first
feature whose properties.id equals the field id, breaking at the first
match; falling off the end raises ValueError. -/
def fieldInfoLoop (field_id : String) : List PyVal → Except PyErr PyVal
  | [] => .error (.valueError ("Field " ++ field_id ++ " not found."))
  | f :: rest => do
    let props ← f.getItem "properties"
    let idv ← props.getItem "id"
    if pyEq idv (.str field_id) then pure f else fieldInfoLoop field_id rest

/-- FOBucket.get_field_information. -/
def get_field_information (st : FOBucketState) (field_id : String) :
    Except PyErr PyVal := do
  let bj ← read_block_geojson st
  let feats ← bj.getItem "features"
  let l ← feats.asIterable
  fieldInfoLoop field_id l

/-- FOBucket.get_field_geometry: the geometry sub-object of the feature
found by get_field_information. -/
def get_field_geometry (st : FOBucketState) (field_id : String) :
    Except PyErr PyVal := do
  let fi ← get_field_information st field_id
  fi.getItem "geometry"

/-- The events document wrapping a management-events list, as the accessors
expect it: a dict with a management dict holding the events array. -/
def mkEventsDoc (evs : List PyVal) : PyVal :=
  .dict [("management", .dict [("events", .list evs)])]

/-- The computation ended in a Python KeyError (a missing-key error). -/
def isKeyError : Except PyErr α → Bool
  | .error (.keyError _) => true
  | _ => false

/-- Every error the computation can surface is a KeyError. -/
def onlyKeyErrors (x : Except PyErr α) : Prop :=
  ∀ err, x = .error err → ∃ k, err = PyErr.keyError k

/-- The properties.id subscript chain the boundary scan performs on each
feature. -/
def featId (f : PyVal) : Except PyErr PyVal := do
  let props ← f.getItem "properties"
  props.getItem "id"

/-- The condition of the boundary scan: the feature's properties.id value
compares Python-equal to the field id (false when the chain raises, which
the well-formedness hypotheses rule out). -/
def featureMatches (field_id : String) (f : PyVal) : Bool :=
  match featId f with
  | .ok idv => pyEq idv (.str field_id)
  | .error _ => false

/-- The match condition of the get_event_type scan: the event carries a
date whose parsed value equals the parsed query date (false when the event
has no date key, which the scan skips, or when parsing fails). -/
def eventDateMatches (date : String) (e : PyVal) : Bool :=
  match e.getItem "date" with
  | .error _ => false
  | .ok dv =>
    match pdToDatetime dv, pdToDatetime (.str date) with
    | .ok a, .ok b => a == b
    | _, _ => false

/-- A bucket with one csv object under the qvidja/ec/lai prefix, to exhibit
what the delegate returns on the prefix the wrapper builds. -/
def stCsv : FOBucketState := ⟨[("qvidja/ec/lai/data.csv", PyVal.none)]⟩

/-- A harvest event with a date but no harvest_crop field. -/
def evNoCrop : PyVal :=
  .dict [("mgmt_operations_event", .str "harvest"), ("date", .str "2021-06-01")]

/-- A bucket whose field x holds an events document with just that event. -/
def stNoCrop : FOBucketState := ⟨[("x/events.json", mkEventsDoc [evNoCrop])]⟩

/-- Boundary fixture: feature a with geometry G1. -/
def bFeatA : PyVal := .dict [("properties", .dict [("id", .str "a")]), ("geometry", .str "G1")]

/-- Boundary fixture: feature b with geometry G2. -/
def bFeatB : PyVal := .dict [("properties", .dict [("id", .str "b")]), ("geometry", .str "G2")]

/-- Boundary fixture: the shared GeoJSON document with the two features. -/
def bBoundaryDoc : PyVal := .dict [("features", .list [bFeatA, bFeatB])]

/-- Boundary fixture: a bucket holding the boundary document. -/
def stBoundary : FOBucketState := ⟨[(FO_BLOCK_GEOJSON, bBoundaryDoc)]⟩

/-- A mowing event without moved_crop. -/
def evMowNoCrop : PyVal :=
  .dict [("mgmt_operations_event", .str "mowing"), ("date", .str "2021-07-01")]

/-- A mowing event carrying moved_crop. -/
def evMowCrop : PyVal :=
  .dict [("mgmt_operations_event", .str "mowing"), ("date", .str "2021-08-01"),
    ("moved_crop", .str "grass")]

/-- A bucket whose field x has the two mowing events. -/
def stMow : FOBucketState := ⟨[("x/events.json", mkEventsDoc [evMowNoCrop, evMowCrop])]⟩

/-- A harvest event with both amount fields, the total being 5.0 and the
bare field 3.0. -/
def evBothAmounts : PyVal :=
  .dict [("mgmt_operations_event", .str "harvest"), ("date", .str "2021-09-01"),
    ("harvest_yield_harvest_dw_total", .num 5), ("harvest_yield_harvest_dw", .num 3)]

/-- A bucket whose field x has an empty events array. -/
def stEmptyEvents : FOBucketState := ⟨[("x/events.json", mkEventsDoc [])]⟩

/-- A harvest event whose total amount field holds the numeric sentinel. -/
def evNumSentinel : PyVal :=
  .dict [("mgmt_operations_event", .str "harvest"), ("date", .str "2021-06-01"),
    ("harvest_yield_harvest_dw_total", .num (-99))]

/-- A bucket whose field x has just that harvest event. -/
def stNumSentinel : FOBucketState := ⟨[("x/events.json", mkEventsDoc [evNumSentinel])]⟩

/-- A vegetation observation whose tops_C holds the numeric sentinel. -/
def evObsNumSentinel : PyVal :=
  .dict [("mgmt_operations_event", .str "observation"), ("date", .str "2021-06-02"),
    ("observation_type", .str "observation_type_vegetation"), ("tops_C", .num (-99))]

/-- A bucket whose field x has just that observation event. -/
def stObsNumSentinel : FOBucketState := ⟨[("x/events.json", mkEventsDoc [evObsNumSentinel])]⟩

/-- A bucket whose field x has the double-amount harvest event. -/
def stBothAmounts : FOBucketState := ⟨[("x/events.json", mkEventsDoc [evBothAmounts])]⟩

/-- A harvest event in May with total amount 4.0. -/
def evHarvMay : PyVal :=
  .dict [("mgmt_operations_event", .str "harvest"), ("date", .str "2021-05-05"),
    ("harvest_yield_harvest_dw_total", .num 4)]

/-- A harvest event in June with total amount 7.0. -/
def evHarvJun : PyVal :=
  .dict [("mgmt_operations_event", .str "harvest"), ("date", .str "2021-06-06"),
    ("harvest_yield_harvest_dw_total", .num 7)]

/-- A bucket whose field x has the two harvest events in document order. -/
def stTwoHarvests : FOBucketState :=
  ⟨[("x/events.json", mkEventsDoc [evHarvMay, evHarvJun])]⟩

/-- Decidable equality of embedded Python computations, used by the date
comparison of the scans. -/
instance : DecidableEq (Except PyErr PyDateTime) := fun x y =>
  match x, y with
  | .ok a, .ok b =>
    if h : a = b then .isTrue (by rw [h]) else .isFalse (fun hc => h (Except.ok.inj hc))
  | .error a, .error b =>
    if h : a = b then .isTrue (by rw [h]) else .isFalse (fun hc => h (Except.error.inj hc))
  | .ok _, .error _ => .isFalse (fun hc => Except.noConfusion hc)
  | .error _, .ok _ => .isFalse (fun hc => Except.noConfusion hc)

/-!  Helper lemmas: each derived-view accessor reduces to its loop over the
management events once the events document is fixed.  -/

/-- get_harvest_dates reduces to its loop on the events list. -/
theorem get_harvest_dates_events (st : FOBucketState) (fid : String)
    (evs : List PyVal) (h : get_events st fid = some (mkEventsDoc evs)) :
    get_harvest_dates st fid = harvestDatesLoop evs := by
  unfold get_harvest_dates
  rw [h]
  rfl

/-- get_mowing_dates reduces to its loop on the events list. -/
theorem get_mowing_dates_events (st : FOBucketState) (fid : String)
    (evs : List PyVal) (h : get_events st fid = some (mkEventsDoc evs)) :
    get_mowing_dates st fid = mowingDatesLoop evs := by
  unfold get_mowing_dates
  rw [h]
  rfl

/-- get_species_events reduces to its loop on the events list. -/
theorem get_species_events_events (st : FOBucketState) (fid : String)
    (evs : List PyVal) (h : get_events st fid = some (mkEventsDoc evs)) :
    get_species_events st fid = speciesEventsLoop evs := by
  unfold get_species_events
  rw [h]
  rfl

/-- get_harvest_amounts reduces to its loop on the events list. -/
theorem get_harvest_amounts_events (st : FOBucketState) (fid : String)
    (evs : List PyVal) (h : get_events st fid = some (mkEventsDoc evs)) :
    get_harvest_amounts st fid = harvestAmountsLoop evs := by
  unfold get_harvest_amounts
  rw [h]
  rfl

/-- get_harvest_info reduces to its loop on the events list. -/
theorem get_harvest_info_events (st : FOBucketState) (fid : String)
    (evs : List PyVal) (h : get_events st fid = some (mkEventsDoc evs)) :
    get_harvest_info st fid = harvestInfoLoop evs := by
  unfold get_harvest_info
  rw [h]
  rfl

/-- get_observation_events reduces to its loop on the events list. -/
theorem get_observation_events_events (st : FOBucketState) (fid : String)
    (evs : List PyVal) (h : get_events st fid = some (mkEventsDoc evs)) :
    get_observation_events st fid = observationEventsLoop evs := by
  unfold get_observation_events
  rw [h]
  rfl

/-- get_event_type reduces to its scan on the events list. -/
theorem get_event_type_events (st : FOBucketState) (fid date : String)
    (evs : List PyVal) (h : get_events st fid = some (mkEventsDoc evs)) :
    get_event_type st fid date = eventTypeScan date PyVal.none evs := by
  unfold get_event_type
  rw [h]
  rfl

/-- C6: for every field whose prefix listing contains no events.json object,
every derived-view accessor (harvest dates, mowing dates, species events,
harvest amounts, harvest info, mowings as harvest info, observation events,
AGB observations) returns the empty sequence rather than raising an
error. -/
theorem C6_no_events_file_views_empty (st : FOBucketState) (field_id : String)
    (h : osPathJoin (replaceUnderscores field_id) "events.json" ∉
      list_files st (replaceUnderscores field_id) true) :
    get_harvest_dates st field_id = .ok [] ∧
    get_mowing_dates st field_id = .ok [] ∧
    get_species_events st field_id = .ok [] ∧
    get_harvest_amounts st field_id = .ok [] ∧
    get_harvest_info st field_id = .ok [] ∧
    get_mowings_as_harvest_info st field_id = .ok [] ∧
    get_observation_events st field_id = .ok [] ∧
    get_AGB_observations st field_id = .ok [] := by
  have hev : get_events st field_id = Option.none := by
    unfold get_events
    simp only [if_neg h]
  refine ⟨?_, ?_, ?_, ?_, ?_, ?_, ?_, ?_⟩
  · unfold get_harvest_dates; rw [hev]
  · unfold get_mowing_dates; rw [hev]
  · unfold get_species_events; rw [hev]
  · unfold get_harvest_amounts; rw [hev]
  · unfold get_harvest_info; rw [hev]
  · unfold get_mowings_as_harvest_info; rw [hev]
  · unfold get_observation_events; rw [hev]
  · unfold get_AGB_observations get_observation_events; rw [hev]; rfl

/-- Witness for C6 at a concrete bucket holding only an unrelated object:
the hypothesis holds and all eight views are empty. -/
theorem C6_no_events_file_views_empty_witness :
    (osPathJoin (replaceUnderscores "x_1") "events.json" ∉
      list_files ⟨[("a/b.csv", PyVal.none)]⟩ (replaceUnderscores "x_1") true) ∧
    get_harvest_dates ⟨[("a/b.csv", PyVal.none)]⟩ "x_1" = .ok [] :=
  ⟨by decide,
   (C6_no_events_file_views_empty ⟨[("a/b.csv", PyVal.none)]⟩ "x_1" (by decide)).1⟩

/-!  Generic lemmas about the loop skeleton.  -/

/-- A raising body aborts the loop with its error. -/
theorem perEvent_cons_err (f : PyVal → Except PyErr (Option β)) (e : PyVal)
    (rest : List PyVal) (err : PyErr) (h : f e = .error err) :
    perEvent f (e :: rest) = .error err := by
  conv_lhs => unfold perEvent
  rw [h]
  rfl

/-- A skipping body leaves the result of the remaining iterations. -/
theorem perEvent_cons_skip (f : PyVal → Except PyErr (Option β)) (e : PyVal)
    (rest : List PyVal) (h : f e = .ok Option.none) :
    perEvent f (e :: rest) = perEvent f rest := by
  conv_lhs => unfold perEvent
  rw [h]
  rfl

/-- A contributing body prepends its element to the remaining result. -/
theorem perEvent_cons_some (f : PyVal → Except PyErr (Option β)) (e : PyVal)
    (rest : List PyVal) (b : β) (h : f e = .ok (some b)) :
    perEvent f (e :: rest) = (perEvent f rest).map (fun tail => b :: tail) := by
  conv_lhs => unfold perEvent
  rw [h]
  cases ht : perEvent f rest <;> rfl

/-- The loop over a list with a successfully processed first part prepends
that part's contributions to the result over the second part. -/
theorem perEvent_append_ok (f : PyVal → Except PyErr (Option β))
    (l1 : List PyVal) (a : List β) (h : perEvent f l1 = .ok a)
    (l2 : List PyVal) :
    perEvent f (l1 ++ l2) = (perEvent f l2).map (fun b => a ++ b) := by
  induction l1 generalizing a with
  | nil =>
    unfold perEvent at h
    cases h
    rw [List.nil_append]
    cases perEvent f l2 <;> rfl
  | cons e rest ih =>
    cases hfe : f e with
    | error err =>
      rw [perEvent_cons_err f e rest err hfe] at h
      cases h
    | ok ob =>
      cases ob with
      | none =>
        rw [perEvent_cons_skip f e rest hfe] at h
        rw [List.cons_append, perEvent_cons_skip f e (rest ++ l2) hfe]
        exact ih a h
      | some b =>
        rw [perEvent_cons_some f e rest b hfe] at h
        cases ht : perEvent f rest with
        | error err => rw [ht] at h; cases h
        | ok t =>
          rw [ht] at h
          cases h
          rw [List.cons_append, perEvent_cons_some f e (rest ++ l2) b hfe,
            ih t ht]
          cases perEvent f l2 <;> rfl

/-- Every element of a successful loop result is produced by the body: any
property of all possible body outputs holds for all result elements. -/
theorem perEvent_ok_forall (f : PyVal → Except PyErr (Option β))
    (P : β → Prop) (hP : ∀ e b, f e = .ok (some b) → P b)
    (l : List PyVal) (res : List β) (h : perEvent f l = .ok res) :
    ∀ b ∈ res, P b := by
  induction l generalizing res with
  | nil =>
    unfold perEvent at h
    cases h
    intro b hb
    cases hb
  | cons e rest ih =>
    cases hfe : f e with
    | error err => rw [perEvent_cons_err f e rest err hfe] at h; cases h
    | ok ob =>
      cases ob with
      | none =>
        rw [perEvent_cons_skip f e rest hfe] at h
        exact ih res h
      | some b =>
        rw [perEvent_cons_some f e rest b hfe] at h
        cases ht : perEvent f rest with
        | error err => rw [ht] at h; cases h
        | ok t =>
          rw [ht] at h
          cases h
          intro x hx
          rcases List.mem_cons.mp hx with rfl | hxt
          · exact hP e x hfe
          · exact ih t ht x hxt

/-- Subscripting a dict reduces to the association-list lookup. -/
theorem getItem_dict (l : List (String × PyVal)) (k : String) :
    (PyVal.dict l).getItem k =
      match List.lookup k l with
      | some v => .ok v
      | Option.none => .error (.keyError k) := rfl

/-- A successful computation vacuously raises only KeyErrors. -/
theorem onlyKeyErrors_ok (a : α) : onlyKeyErrors (Except.ok a : Except PyErr α) := by
  intro err h
  cases h

/-- Sequencing preserves the only-KeyErrors property. -/
theorem onlyKeyErrors_bind {x : Except PyErr α} {g : α → Except PyErr γ}
    (hx : onlyKeyErrors x) (hg : ∀ a, onlyKeyErrors (g a)) :
    onlyKeyErrors (x >>= g) := by
  intro err h
  cases hxv : x with
  | error e2 =>
    rw [hxv] at h
    have h2 : (Except.error e2 : Except PyErr α) >>= g = (.error e2 : Except PyErr γ) := rfl
    rw [h2] at h
    injection h with h3
    subst h3
    exact hx e2 hxv
  | ok a =>
    rw [hxv] at h
    exact hg a err h

/-- Subscripting a dict raises only KeyErrors. -/
theorem getItem_onlyKeyErrors (l : List (String × PyVal)) (k : String) :
    onlyKeyErrors ((PyVal.dict l).getItem k) := by
  intro err h
  rw [getItem_dict] at h
  cases hl : List.lookup k l with
  | none =>
    rw [hl] at h
    injection h with h2
    exact ⟨k, h2.symm⟩
  | some v =>
    rw [hl] at h
    cases h

/-- The species resolution raises only KeyErrors on a dict event. -/
theorem speciesSel_onlyKeyErrors (l : List (String × PyVal)) (op : PyVal) :
    onlyKeyErrors (speciesSel (.dict l) op) := by
  unfold speciesSel
  split
  · apply onlyKeyErrors_bind (getItem_onlyKeyErrors l "harvest_crop")
    intro s
    exact onlyKeyErrors_ok _
  · split
    · apply onlyKeyErrors_bind (onlyKeyErrors_ok _)
      intro hasMoved
      split
      · apply onlyKeyErrors_bind (getItem_onlyKeyErrors l "moved_crop")
        intro s
        exact onlyKeyErrors_ok _
      · exact onlyKeyErrors_ok _
    · exact onlyKeyErrors_ok _

/-- The species-events loop body raises only KeyErrors on a dict event. -/
theorem speciesEventsBody_onlyKeyErrors (l : List (String × PyVal)) :
    onlyKeyErrors (speciesEventsBody (.dict l)) := by
  unfold speciesEventsBody
  apply onlyKeyErrors_bind (getItem_onlyKeyErrors l "mgmt_operations_event")
  intro op
  apply onlyKeyErrors_bind (speciesSel_onlyKeyErrors l op)
  intro species?
  cases species? with
  | none => exact onlyKeyErrors_ok _
  | some species =>
    apply onlyKeyErrors_bind (getItem_onlyKeyErrors l "date")
    intro d
    exact onlyKeyErrors_ok _

/-- If every event can only raise KeyErrors and some event does raise, the
whole loop surfaces a KeyError. -/
theorem perEvent_keyError (f : PyVal → Except PyErr (Option β))
    (l : List PyVal) (hall : ∀ x ∈ l, onlyKeyErrors (f x))
    (e : PyVal) (he : e ∈ l) (herr : ∃ err, f e = .error err) :
    isKeyError (perEvent f l) = true := by
  induction l with
  | nil => cases he
  | cons x rest ih =>
    rcases List.mem_cons.mp he with rfl | hrest
    · obtain ⟨err, herr⟩ := herr
      obtain ⟨k, rfl⟩ := hall e (List.mem_cons_self e rest) err herr
      rw [perEvent_cons_err f e rest _ herr]
      rfl
    · cases hfx : f x with
      | error err =>
        obtain ⟨k, rfl⟩ := hall x (List.mem_cons_self x rest) err hfx
        rw [perEvent_cons_err f x rest _ hfx]
        rfl
      | ok ob =>
        have hres := ih (fun y hy => hall y (List.mem_cons_of_mem x hy)) hrest
        cases ob with
        | none => rw [perEvent_cons_skip f x rest hfx]; exact hres
        | some b =>
          rw [perEvent_cons_some f x rest b hfx]
          cases hr : perEvent f rest with
          | error er2 =>
            rw [hr] at hres
            exact hres
          | ok t =>
            rw [hr] at hres
            simp [isKeyError] at hres

/-- C10: for every events document containing a harvest event that lacks the
harvest_crop field, getSpeciesEvents fails with a missing-key error rather
than producing a species entry: the harvest branch reads harvest_crop
unconditionally, with no absence handling analogous to the mowing branch
fallback.  (The events are assumed to be JSON objects, as the data model
prescribes.) -/
theorem C10_species_events_missing_harvest_crop (st : FOBucketState)
    (fid : String) (evs : List PyVal)
    (hev : get_events st fid = some (mkEventsDoc evs))
    (hdicts : ∀ x ∈ evs, ∃ dl, x = PyVal.dict dl)
    (l : List (String × PyVal)) (he : PyVal.dict l ∈ evs)
    (hop : List.lookup "mgmt_operations_event" l = some (.str "harvest"))
    (hmiss : List.lookup "harvest_crop" l = Option.none) :
    isKeyError (get_species_events st fid) = true := by
  rw [get_species_events_events st fid evs hev]
  show isKeyError (perEvent speciesEventsBody evs) = true
  apply perEvent_keyError speciesEventsBody evs ?hall (PyVal.dict l) he ?herr
  case hall =>
    intro x hx
    obtain ⟨dl, rfl⟩ := hdicts x hx
    exact speciesEventsBody_onlyKeyErrors dl
  case herr =>
    refine ⟨.keyError "harvest_crop", ?_⟩
    unfold speciesEventsBody
    rw [show (PyVal.dict l).getItem "mgmt_operations_event" = .ok (.str "harvest") by
      rw [getItem_dict, hop]]
    show speciesSel (PyVal.dict l) (.str "harvest") >>= _ = _
    unfold speciesSel
    rw [if_pos (by rfl : pyEq (PyVal.str "harvest") (PyVal.str "harvest") = true)]
    rw [show (PyVal.dict l).getItem "harvest_crop" = .error (.keyError "harvest_crop") by
      rw [getItem_dict, hmiss]]
    rfl

/-- Witness for C10 at a concrete events document whose single management
event is a harvest without harvest_crop. -/
theorem C10_species_events_missing_harvest_crop_witness :
    isKeyError (get_species_events stNoCrop "x") = true := by
  apply C10_species_events_missing_harvest_crop stNoCrop "x" [evNoCrop] rfl ?hd
      [("mgmt_operations_event", .str "harvest"), ("date", .str "2021-06-01")] ?hm rfl rfl
  case hd =>
    intro x hx
    rcases List.mem_singleton.mp hx with rfl
    exact ⟨_, rfl⟩
  case hm => exact List.mem_singleton.mpr rfl

/-- C3: the claim asserts getFieldTimeseriesData(fieldId, dataType) equals
getTimeseriesData on the prefix built from fieldId and dataType, succeeding
whenever the delegate succeeds.  The code instead performs the call
self.get_timeseries_data(prefix, data_type) with two positional arguments
against a method declared with the single parameter prefix, so every call
raises TypeError before the delegate body runs; on the very same prefix the
delegate itself succeeds.  This contradicts the repository test suite,
which expects the analogous site wrapper to return a dataframe. -/
theorem C3_field_timeseries_wrapper_type_error :
    (∀ (st : FOBucketState) (field_id data_type : String),
      get_field_timeseries_data st field_id data_type = .error .typeError) ∧
    get_timeseries_data stCsv "qvidja/ec/lai" =
      .ok { source_files := [objectUrl "qvidja/ec/lai/data.csv"] } :=
  ⟨fun _ _ _ => rfl, rfl⟩

/-- The boundary scan returns the first feature whose properties.id equals
the field id and raises ValueError when none does, provided every feature
carries the properties.id chain. -/
theorem fieldInfoLoop_find (field_id : String) (feats : List PyVal)
    (hwf : ∀ f ∈ feats, ∃ v, featId f = .ok v) :
    fieldInfoLoop field_id feats =
      match feats.find? (featureMatches field_id) with
      | some f => .ok f
      | Option.none => .error (.valueError ("Field " ++ field_id ++ " not found.")) := by
  induction feats with
  | nil => rfl
  | cons f rest ih =>
    obtain ⟨v, hv⟩ := hwf f (List.mem_cons_self f rest)
    have hmv : featureMatches field_id f = pyEq v (.str field_id) := by
      unfold featureMatches
      rw [hv]
    cases hp : f.getItem "properties" with
    | error err => unfold featId at hv; rw [hp] at hv; cases hv
    | ok props =>
      cases hid : props.getItem "id" with
      | error err =>
        unfold featId at hv
        rw [hp] at hv
        have : props.getItem "id" = .ok v := hv
        rw [hid] at this
        cases this
      | ok idv =>
        have hidv : idv = v := by
          unfold featId at hv
          rw [hp] at hv
          have : props.getItem "id" = .ok v := hv
          rw [hid] at this
          cases this
          rfl
        subst hidv
        have hloop : fieldInfoLoop field_id (f :: rest) =
            if pyEq idv (.str field_id) then .ok f else fieldInfoLoop field_id rest := by
          conv_lhs => unfold fieldInfoLoop
          rw [hp]
          show (props.getItem "id") >>= _ = _
          rw [hid]
          rfl
        by_cases hm : pyEq idv (.str field_id) = true
        · rw [hloop, if_pos hm, List.find?_cons_of_pos _ (by rw [hmv]; exact hm)]
        · rw [hloop, if_neg hm,
            List.find?_cons_of_neg _ (by rw [hmv]; exact hm),
            ih (fun g hg => hwf g (List.mem_cons_of_mem f hg))]

/-- C8: for every boundary document, getFieldInformation(fieldId) returns
the first feature of the GeoJSON feature list whose properties.id equals
fieldId, and raises the NotFound ValueError when no feature matches, rather
than silently returning a default.  (Features are assumed to carry the
properties.id chain, as the GeoJSON schema prescribes.) -/
theorem C8_field_information_first_match (st : FOBucketState) (field_id : String)
    (doc : PyVal) (feats : List PyVal)
    (hdoc : read_block_geojson st = .ok doc)
    (hfeats : doc.getItem "features" = .ok (.list feats))
    (hwf : ∀ f ∈ feats, ∃ v, featId f = .ok v) :
    get_field_information st field_id =
      match feats.find? (featureMatches field_id) with
      | some f => .ok f
      | Option.none => .error (.valueError ("Field " ++ field_id ++ " not found.")) := by
  unfold get_field_information
  rw [hdoc]
  show doc.getItem "features" >>= _ = _
  rw [hfeats]
  show fieldInfoLoop field_id feats = _
  exact fieldInfoLoop_find field_id feats hwf

/-- Witness for C8 at the concrete two-feature boundary document: looking up
b returns the second feature, looking up c raises the NotFound ValueError. -/
theorem C8_field_information_first_match_witness :
    get_field_information stBoundary "b" = .ok bFeatB ∧
    get_field_information stBoundary "c" = .error (.valueError "Field c not found.") := by
  constructor
  · exact (C8_field_information_first_match stBoundary "b" bBoundaryDoc [bFeatA, bFeatB]
      rfl rfl (by
        intro f hf
        rcases List.mem_cons.mp hf with rfl | hf
        · exact ⟨.str "a", rfl⟩
        · rcases List.mem_singleton.mp hf with rfl
          exact ⟨.str "b", rfl⟩)).trans (by rfl)
  · exact (C8_field_information_first_match stBoundary "c" bBoundaryDoc [bFeatA, bFeatB]
      rfl rfl (by
        intro f hf
        rcases List.mem_cons.mp hf with rfl | hf
        · exact ⟨.str "a", rfl⟩
        · rcases List.mem_singleton.mp hf with rfl
          exact ⟨.str "b", rfl⟩)).trans (by rfl)

/-- C9: for every field identifier present in the boundary document,
getFieldGeometry(fieldId) equals the geometry sub-object of the feature
returned by getFieldInformation(fieldId). -/
theorem C9_geometry_round_trip (st : FOBucketState) (field_id : String)
    (f g : PyVal)
    (hf : get_field_information st field_id = .ok f)
    (hg : f.getItem "geometry" = .ok g) :
    get_field_geometry st field_id = .ok g := by
  unfold get_field_geometry
  rw [hf]
  exact hg

/-- Witness for C9 at the concrete boundary document: the geometry of field
b round-trips. -/
theorem C9_geometry_round_trip_witness :
    get_field_geometry stBoundary "b" = .ok (.str "G2") :=
  C9_geometry_round_trip stBoundary "b" bFeatB (.str "G2") rfl rfl

/-- Computation rule: binding a successful Except value applies the
continuation. -/
theorem ok_bind (a : α) (f : α → Except PyErr γ) :
    (Except.ok a : Except PyErr α) >>= f = f a := rfl

/-- Computation rule: binding a raised Except value propagates the error. -/
theorem error_bind (err : PyErr) (f : α → Except PyErr γ) :
    (Except.error err : Except PyErr α) >>= f = .error err := rfl

/-- A skipped event anywhere in the list leaves the loop result unchanged. -/
theorem perEvent_middle_skip (f : PyVal → Except PyErr (Option β)) (e : PyVal)
    (h : f e = .ok Option.none) (pre suf : List PyVal) :
    perEvent f (pre ++ e :: suf) = perEvent f (pre ++ suf) := by
  induction pre with
  | nil => rw [List.nil_append, List.nil_append, perEvent_cons_skip f e suf h]
  | cons x rest ih =>
    rw [List.cons_append, List.cons_append]
    cases hfx : f x with
    | error err => rw [perEvent_cons_err f x _ _ hfx, perEvent_cons_err f x _ _ hfx]
    | ok ob =>
      cases ob with
      | none =>
        rw [perEvent_cons_skip f x _ hfx, perEvent_cons_skip f x _ hfx]
        exact ih
      | some b =>
        rw [perEvent_cons_some f x _ _ hfx, perEvent_cons_some f x _ _ hfx, ih]

/-- C7: for every mowing event lacking the moved_crop field, getSpeciesEvents
reports an entry whose species is exactly the literal string "-99.0" (not
Absent), with the event's date and the mowing event type; mowing events
with moved_crop report its value as the species (second conjunct, stated on
the loop body). -/
theorem C7_species_mowing_sentinel (st : FOBucketState) (fid : String)
    (pre suf : List PyVal) (e d : PyVal)
    (hev : get_events st fid = some (mkEventsDoc (pre ++ e :: suf)))
    (hop : e.getItem "mgmt_operations_event" = .ok (.str "mowing"))
    (hnomoved : e.containsKey "moved_crop" = .ok false)
    (hd : e.getItem "date" = .ok d)
    (lpre lsuf : List SpeciesEvent)
    (hpre : speciesEventsLoop pre = .ok lpre)
    (hsuf : speciesEventsLoop suf = .ok lsuf)
    (e2 d2 s : PyVal)
    (gop : e2.getItem "mgmt_operations_event" = .ok (.str "mowing"))
    (gmoved : e2.containsKey "moved_crop" = .ok true)
    (gs : e2.getItem "moved_crop" = .ok s)
    (gd : e2.getItem "date" = .ok d2) :
    get_species_events st fid =
      .ok (lpre ++ { date := d, species := .str "-99.0", event_type := .str "mowing" } :: lsuf) ∧
    speciesEventsBody e2 = .ok (some { date := d2, species := s, event_type := .str "mowing" }) := by
  constructor
  · have hbody : speciesEventsBody e =
        .ok (some { date := d, species := .str "-99.0", event_type := .str "mowing" }) := by
      unfold speciesEventsBody
      rw [hop, ok_bind]
      have hsel : speciesSel e (.str "mowing") = .ok (some (.str "-99.0")) := by
        unfold speciesSel
        rw [if_neg (by decide : ¬(pyEq (PyVal.str "mowing") (PyVal.str "harvest") = true)),
          if_pos (by decide : pyEq (PyVal.str "mowing") (PyVal.str "mowing") = true),
          hnomoved, ok_bind]
        rfl
      rw [hsel, ok_bind]
      show e.getItem "date" >>= _ = _
      rw [hd, ok_bind]
      rfl
    rw [get_species_events_events st fid _ hev]
    show perEvent speciesEventsBody (pre ++ e :: suf) = _
    have hsuf2 : perEvent speciesEventsBody suf = .ok lsuf := hsuf
    rw [perEvent_append_ok speciesEventsBody pre lpre hpre (e :: suf),
      perEvent_cons_some speciesEventsBody e suf _ hbody, hsuf2]
    rfl
  · unfold speciesEventsBody
    rw [gop, ok_bind]
    have hsel : speciesSel e2 (.str "mowing") = .ok (some s) := by
      unfold speciesSel
      rw [if_neg (by decide : ¬(pyEq (PyVal.str "mowing") (PyVal.str "harvest") = true)),
        if_pos (by decide : pyEq (PyVal.str "mowing") (PyVal.str "mowing") = true),
        gmoved, ok_bind, if_pos rfl, gs, ok_bind]
      rfl
    rw [hsel, ok_bind]
    show e2.getItem "date" >>= _ = _
    rw [gd, ok_bind]
    rfl

/-- Witness for C7 at the concrete two-mowing document. -/
theorem C7_species_mowing_sentinel_witness :
    get_species_events stMow "x" =
      .ok [{ date := .str "2021-07-01", species := .str "-99.0", event_type := .str "mowing" },
        { date := .str "2021-08-01", species := .str "grass", event_type := .str "mowing" }] ∧
    speciesEventsBody evMowCrop =
      .ok (some { date := .str "2021-08-01", species := .str "grass", event_type := .str "mowing" }) :=
  C7_species_mowing_sentinel stMow "x" [] [evMowCrop] evMowNoCrop (.str "2021-07-01")
    rfl rfl rfl rfl []
    [{ date := .str "2021-08-01", species := .str "grass", event_type := .str "mowing" }]
    rfl rfl evMowCrop (.str "2021-08-01") (.str "grass") rfl rfl rfl rfl

/-- C5: a harvest event with neither harvest_yield_harvest_dw_total nor
harvest_yield_harvest_dw contributes no element to getHarvestAmounts (the
first conjunct compares a document with the event against the same document
without it) but still contributes one entry with Absent amount to
getHarvestInfo (second conjunct); when both amount fields are present the
_total field is preferred, in both loop bodies (third and fourth
conjuncts, where the value of the bare field plays no role). -/
theorem C5_harvest_amount_presence (st st2 : FOBucketState) (fid : String)
    (pre suf : List PyVal) (e d : PyVal)
    (hev : get_events st fid = some (mkEventsDoc (pre ++ e :: suf)))
    (hev2 : get_events st2 fid = some (mkEventsDoc (pre ++ suf)))
    (hop : e.getItem "mgmt_operations_event" = .ok (.str "harvest"))
    (hnototal : e.containsKey "harvest_yield_harvest_dw_total" = .ok false)
    (hnobare : e.containsKey "harvest_yield_harvest_dw" = .ok false)
    (hd : e.getItem "date" = .ok d)
    (ipre isuf : List HarvestEntry)
    (hpre : harvestInfoLoop pre = .ok ipre)
    (hsuf : harvestInfoLoop suf = .ok isuf)
    (e2 d2 a : PyVal)
    (gop : e2.getItem "mgmt_operations_event" = .ok (.str "harvest"))
    (gtotal : e2.containsKey "harvest_yield_harvest_dw_total" = .ok true)
    (ga : e2.getItem "harvest_yield_harvest_dw_total" = .ok a)
    (gbare : e2.containsKey "harvest_yield_harvest_dw" = .ok true)
    (gd : e2.getItem "date" = .ok d2) :
    get_harvest_amounts st fid = get_harvest_amounts st2 fid ∧
    get_harvest_info st fid =
      .ok (ipre ++ { date := d, amount := PyVal.none, event_type := "harvest" } :: isuf) ∧
    harvestAmountsBody e2 =
      .ok (some (if pyEq a (.num (-99)) || pyEq a (.str "-99.0") then PyVal.none else a)) ∧
    harvestInfoBody e2 =
      .ok (some (HarvestEntry.mk d2
        (if pyEq a (.str "-99.0") then PyVal.none else a) "harvest")) := by
  refine ⟨?_, ?_, ?_, ?_⟩
  · have hbody : harvestAmountsBody e = .ok Option.none := by
      unfold harvestAmountsBody
      rw [hop, ok_bind, if_pos (by decide : pyEq (PyVal.str "harvest") (PyVal.str "harvest") = true)]
      have hsel : selectRawAmount e = .ok Option.none := by
        unfold selectRawAmount
        rw [hnototal, ok_bind, if_neg (by decide : ¬((false : Bool) = true)),
          hnobare, ok_bind]
        rfl
      rw [hsel, ok_bind]
      rfl
    rw [get_harvest_amounts_events st fid _ hev, get_harvest_amounts_events st2 fid _ hev2]
    show perEvent harvestAmountsBody (pre ++ e :: suf) = perEvent harvestAmountsBody (pre ++ suf)
    exact perEvent_middle_skip harvestAmountsBody e hbody pre suf
  · have hbody : harvestInfoBody e =
        .ok (some { date := d, amount := PyVal.none, event_type := "harvest" }) := by
      unfold harvestInfoBody
      rw [hop, ok_bind, if_pos (by decide : pyEq (PyVal.str "harvest") (PyVal.str "harvest") = true),
        hd, ok_bind]
      have hsel : selectInfoAmount e = .ok PyVal.none := by
        unfold selectInfoAmount
        rw [hnototal, ok_bind, if_neg (by decide : ¬((false : Bool) = true)),
          hnobare, ok_bind]
        rfl
      rw [hsel, ok_bind]
      rfl
    rw [get_harvest_info_events st fid _ hev]
    show perEvent harvestInfoBody (pre ++ e :: suf) = _
    have hsuf2 : perEvent harvestInfoBody suf = .ok isuf := hsuf
    rw [perEvent_append_ok harvestInfoBody pre ipre hpre (e :: suf),
      perEvent_cons_some harvestInfoBody e suf _ hbody, hsuf2]
    rfl
  · unfold harvestAmountsBody
    rw [gop, ok_bind, if_pos (by decide : pyEq (PyVal.str "harvest") (PyVal.str "harvest") = true)]
    have hsel : selectRawAmount e2 = .ok (some a) := by
      unfold selectRawAmount
      rw [gtotal, ok_bind, if_pos rfl, ga, ok_bind]
      rfl
    rw [hsel, ok_bind]
    rfl
  · unfold harvestInfoBody
    rw [gop, ok_bind, if_pos (by decide : pyEq (PyVal.str "harvest") (PyVal.str "harvest") = true),
      gd, ok_bind]
    have hsel : selectInfoAmount e2 = .ok a := by
      unfold selectInfoAmount
      rw [gtotal, ok_bind, if_pos rfl]
      exact ga
    rw [hsel, ok_bind]
    rfl

/-- Witness for C5: the amount-less harvest event evNoCrop is dropped from
getHarvestAmounts (both sides empty), kept with Absent amount by
getHarvestInfo, and on evBothAmounts both loop bodies use the _total value
5.0, ignoring the bare 3.0. -/
theorem C5_harvest_amount_presence_witness :
    get_harvest_amounts stNoCrop "x" = get_harvest_amounts stEmptyEvents "x" ∧
    get_harvest_info stNoCrop "x" =
      .ok [{ date := .str "2021-06-01", amount := PyVal.none, event_type := "harvest" }] ∧
    harvestAmountsBody evBothAmounts = .ok (some (.num 5)) ∧
    harvestInfoBody evBothAmounts =
      .ok (some { date := .str "2021-09-01", amount := .num 5, event_type := "harvest" }) := by
  have h := C5_harvest_amount_presence stNoCrop stEmptyEvents "x" [] [] evNoCrop
    (.str "2021-06-01") rfl rfl rfl rfl rfl rfl [] [] rfl rfl
    evBothAmounts (.str "2021-09-01") (.num 5) rfl rfl rfl rfl rfl
  refine ⟨h.1, h.2.1, ?_, ?_⟩
  · rw [h.2.2.1]
    rfl
  · rw [h.2.2.2]
    rfl

/-- Computation rule: binding a pure Except value applies the
continuation. -/
theorem pyPure_bind (a : α) (f : α → Except PyErr γ) :
    (pure a : Except PyErr α) >>= f = f a := rfl

/-- get_harvest_amounts on a field with an events document runs its loop on
the management events of that document. -/
theorem get_harvest_amounts_some (st : FOBucketState) (fid : String) (doc : PyVal)
    (h : get_events st fid = some doc) :
    get_harvest_amounts st fid = getManagementEvents doc >>= harvestAmountsLoop := by
  unfold get_harvest_amounts
  rw [h]

/-- get_harvest_info on a field with an events document runs its loop on the
management events of that document. -/
theorem get_harvest_info_some (st : FOBucketState) (fid : String) (doc : PyVal)
    (h : get_events st fid = some doc) :
    get_harvest_info st fid = getManagementEvents doc >>= harvestInfoLoop := by
  unfold get_harvest_info
  rw [h]

/-- Python equality is reflexive on numbers. -/
theorem pyEq_num_self (q : Rat) : pyEq (.num q) (.num q) = true := by
  simp [pyEq]

/-- Python equality is reflexive on strings. -/
theorem pyEq_str_self (s : String) : pyEq (.str s) (.str s) = true := by
  simp [pyEq]

/-- The get_harvest_amounts loop body never emits the numeric or string
sentinel: a selected amount equal to either is replaced by None. -/
theorem harvestAmountsBody_no_sentinel (e : PyVal) (b : PyVal)
    (h : harvestAmountsBody e = .ok (some b)) :
    b ≠ PyVal.num (-99) ∧ b ≠ PyVal.str "-99.0" := by
  unfold harvestAmountsBody at h
  cases hop : e.getItem "mgmt_operations_event" with
  | error err => rw [hop, error_bind] at h; cases h
  | ok op =>
    rw [hop, ok_bind] at h
    by_cases hh : pyEq op (.str "harvest") = true
    · rw [if_pos hh] at h
      cases hsel : selectRawAmount e with
      | error err => rw [hsel, error_bind] at h; cases h
      | ok amount? =>
        rw [hsel, ok_bind] at h
        cases amount? with
        | none =>
          injection h with h2
          cases h2
        | some amount =>
          injection h with h2
          injection h2 with h3
          subst h3
          by_cases hs : (pyEq amount (.num (-99)) || pyEq amount (.str "-99.0")) = true
          · rw [if_pos hs]
            exact ⟨fun hc => PyVal.noConfusion hc, fun hc => PyVal.noConfusion hc⟩
          · rw [if_neg hs]
            rw [Bool.or_eq_true, not_or] at hs
            obtain ⟨h1, h2⟩ := hs
            constructor
            · intro hc
              subst hc
              exact h1 (pyEq_num_self (-99))
            · intro hc
              subst hc
              exact h2 (pyEq_str_self "-99.0")
    · rw [if_neg hh] at h
      injection h with h2
      cases h2

/-- The get_harvest_info loop body never emits an entry whose amount is the
string sentinel: it is replaced by None (the numeric sentinel is not
inspected here). -/
theorem harvestInfoBody_no_string_sentinel (e : PyVal) (he : HarvestEntry)
    (h : harvestInfoBody e = .ok (some he)) :
    he.amount ≠ PyVal.str "-99.0" := by
  unfold harvestInfoBody at h
  cases hop : e.getItem "mgmt_operations_event" with
  | error err => rw [hop, error_bind] at h; cases h
  | ok op =>
    rw [hop, ok_bind] at h
    by_cases hh : pyEq op (.str "harvest") = true
    · rw [if_pos hh] at h
      cases hd : e.getItem "date" with
      | error err => rw [hd, error_bind] at h; cases h
      | ok d =>
        rw [hd, ok_bind] at h
        cases hsel : selectInfoAmount e with
        | error err => rw [hsel, error_bind] at h; cases h
        | ok amount =>
          rw [hsel, ok_bind] at h
          have h2 : Except.ok (some (HarvestEntry.mk d
              (if pyEq amount (.str "-99.0") = true then PyVal.none else amount)
              "harvest")) = Except.ok (some he) := h
          injection h2 with h3
          injection h3 with h4
          rw [← h4]
          by_cases hs : pyEq amount (.str "-99.0") = true
          · rw [show (HarvestEntry.mk d
              (if pyEq amount (.str "-99.0") = true then PyVal.none else amount)
              "harvest").amount =
              (if pyEq amount (.str "-99.0") = true then PyVal.none else amount) from rfl,
              if_pos hs]
            exact fun hc => PyVal.noConfusion hc
          · rw [show (HarvestEntry.mk d
              (if pyEq amount (.str "-99.0") = true then PyVal.none else amount)
              "harvest").amount =
              (if pyEq amount (.str "-99.0") = true then PyVal.none else amount) from rfl,
              if_neg hs]
            intro hc
            subst hc
            exact hs (pyEq_str_self "-99.0")
    · rw [if_neg hh] at h
      injection h with h2
      cases h2

/-- The get_AGB_observations loop body never emits an entry whose value is
the string sentinel: the filter admits only tops_C values different from
the string "-99.0" (the numeric sentinel is not inspected). -/
theorem agbBody_no_string_sentinel (e : PyVal) (b : AGBEntry)
    (h : agbBody e = .ok (some b)) :
    b.agb ≠ PyVal.str "-99.0" := by
  unfold agbBody at h
  cases hct : e.containsKey "observation_type" with
  | error err => rw [hct, error_bind] at h; cases h
  | ok hasType =>
    rw [hct, ok_bind] at h
    cases hasType with
    | false =>
      rw [if_neg (by decide : ¬((false : Bool) = true)), pyPure_bind] at h
      injection h with h2
      cases h2
    | true =>
      rw [if_pos rfl] at h
      cases hot : e.getItem "observation_type" with
      | error err => rw [hot, error_bind] at h; cases h
      | ok ot =>
        rw [hot, ok_bind] at h
        by_cases hveg : pyEq ot (.str "observation_type_vegetation") = true
        · rw [if_pos hveg] at h
          cases htc : e.containsKey "tops_C" with
          | error err => rw [htc, error_bind] at h; cases h
          | ok hasTops =>
            rw [htc, ok_bind] at h
            cases hasTops with
            | false =>
              rw [if_neg (by decide : ¬((false : Bool) = true)), pyPure_bind] at h
              injection h with h2
              cases h2
            | true =>
              rw [if_pos rfl] at h
              cases htv : e.getItem "tops_C" with
              | error err => rw [htv, error_bind] at h; cases h
              | ok tc =>
                rw [htv, ok_bind, pyPure_bind] at h
                beta_reduce at h
                by_cases hkeep : (!pyEq tc (.str "-99.0")) = true
                · rw [if_pos hkeep] at h
                  cases hd : e.getItem "date" with
                  | error err => rw [hd, error_bind] at h; cases h
                  | ok d =>
                    rw [hd, ok_bind, ok_bind] at h
                    injection h with h2
                    injection h2 with h3
                    rw [← h3]
                    intro hc
                    rw [show (AGBEntry.mk d tc).agb = tc from rfl] at hc
                    subst hc
                    rw [pyEq_str_self "-99.0"] at hkeep
                    cases hkeep
                · rw [if_neg hkeep] at h
                  injection h with h2
                  cases h2
        · rw [if_neg hveg, pyPure_bind] at h
          injection h with h2
          cases h2

/-- Counterexample for C1: the numeric sentinel -99.0 is NOT resolved to
Absent everywhere.  get_harvest_info passes the numeric amount -99.0
through as a value (first two conjuncts), and get_AGB_observations passes a
numeric tops_C of -99.0 through (third conjunct); only get_harvest_amounts
resolves the numeric form (fourth conjunct, same document). -/
theorem C1_numeric_sentinel_counterexample :
    get_harvest_info stNumSentinel "x" =
      .ok [{ date := .str "2021-06-01", amount := .num (-99), event_type := "harvest" }] ∧
    PyVal.num (-99) ≠ PyVal.none ∧
    get_AGB_observations stObsNumSentinel "x" =
      .ok [{ date := .str "2021-06-02", agb := .num (-99) }] ∧
    get_harvest_amounts stNumSentinel "x" = .ok [PyVal.none] :=
  ⟨rfl, fun h => PyVal.noConfusion h, rfl, rfl⟩

/-- C1 as amended: a sentinel amount never survives into getHarvestAmounts
in either form (first conjunct); getHarvestInfo and getAGBObservations
resolve or filter only the string form "-99.0" of the sentinel, which
therefore never appears in their results (second and third conjuncts),
while the numeric form passes through them (the counterexample). -/
theorem C1_amended_sentinel_resolution :
    (∀ (st : FOBucketState) (fid : String) (l : List PyVal),
      get_harvest_amounts st fid = .ok l →
      ∀ a ∈ l, a ≠ PyVal.num (-99) ∧ a ≠ PyVal.str "-99.0") ∧
    (∀ (st : FOBucketState) (fid : String) (l : List HarvestEntry),
      get_harvest_info st fid = .ok l →
      ∀ he ∈ l, he.amount ≠ PyVal.str "-99.0") ∧
    (∀ (st : FOBucketState) (fid : String) (l : List AGBEntry),
      get_AGB_observations st fid = .ok l →
      ∀ ob ∈ l, ob.agb ≠ PyVal.str "-99.0") := by
  refine ⟨?_, ?_, ?_⟩
  · intro st fid l h
    cases hev : get_events st fid with
    | none =>
      unfold get_harvest_amounts at h
      rw [hev] at h
      have h2 : Except.ok ([] : List PyVal) = Except.ok l := h
      injection h2 with h3
      subst h3
      intro a ha
      cases ha
    | some doc =>
      rw [get_harvest_amounts_some st fid doc hev] at h
      cases hm : getManagementEvents doc with
      | error err => rw [hm, error_bind] at h; cases h
      | ok evs =>
        rw [hm, ok_bind] at h
        exact perEvent_ok_forall harvestAmountsBody _
          (fun e b hb => harvestAmountsBody_no_sentinel e b hb) evs l h
  · intro st fid l h
    cases hev : get_events st fid with
    | none =>
      unfold get_harvest_info at h
      rw [hev] at h
      have h2 : Except.ok ([] : List HarvestEntry) = Except.ok l := h
      injection h2 with h3
      subst h3
      intro he hhe
      cases hhe
    | some doc =>
      rw [get_harvest_info_some st fid doc hev] at h
      cases hm : getManagementEvents doc with
      | error err => rw [hm, error_bind] at h; cases h
      | ok evs =>
        rw [hm, ok_bind] at h
        exact perEvent_ok_forall harvestInfoBody _
          (fun e he hb => harvestInfoBody_no_string_sentinel e he hb) evs l h
  · intro st fid l h
    unfold get_AGB_observations at h
    cases hobs : get_observation_events st fid with
    | error err => rw [hobs, error_bind] at h; cases h
    | ok obsl =>
      rw [hobs, ok_bind] at h
      exact perEvent_ok_forall agbBody _
        (fun e b hb => agbBody_no_string_sentinel e b hb) obsl l h

/-- Witness for the amended C1 at concrete documents: the surviving amount
5.0 and info/AGB entries are not sentinels. -/
theorem C1_amended_sentinel_resolution_witness :
    (PyVal.num 5 ≠ PyVal.num (-99) ∧ PyVal.num 5 ≠ PyVal.str "-99.0") ∧
    ({ date := .str "2021-09-01", amount := .num 5, event_type := "harvest" } : HarvestEntry).amount
      ≠ PyVal.str "-99.0" := by
  constructor
  · exact C1_amended_sentinel_resolution.1 stBothAmounts "x" [.num 5] rfl (.num 5)
      (List.mem_singleton.mpr rfl)
  · exact C1_amended_sentinel_resolution.2.1 stBothAmounts "x"
      [{ date := .str "2021-09-01", amount := .num 5, event_type := "harvest" }] rfl _
      (List.mem_singleton.mpr rfl)

/-- The get_harvest_amount scan is decided by the final entry alone: the
running amount is overwritten on every iteration (with the resolved amount
on a date match and with None otherwise), so the result is the final
entry's resolved amount when its date matches the query date and None in
every other case, the initial accumulator surviving only for an empty
list. -/
theorem harvestAmountScan_last (date : String) (q : PyDateTime)
    (hq : pdToDatetime (.str date) = .ok q)
    (hes : List HarvestEntry)
    (hparse : ∀ he ∈ hes, ∃ dt, pdToDatetime he.date = .ok dt)
    (a : PyVal) :
    harvestAmountScan date a hes = .ok (match hes.getLast? with
      | Option.none => a
      | some e =>
        if pdToDatetime e.date = pdToDatetime (.str date) then
          (if pyEq e.amount (.str "-99.0") then PyVal.none else e.amount)
        else PyVal.none) := by
  induction hes generalizing a with
  | nil => rfl
  | cons e rest ih =>
    obtain ⟨dt, hdt⟩ := hparse e (List.mem_cons_self e rest)
    have hstep : ∀ a2 : PyVal, harvestAmountScan date a2 (e :: rest) =
        if dt = q then
          harvestAmountScan date
            (if pyEq e.amount (.str "-99.0") then PyVal.none else e.amount) rest
        else harvestAmountScan date PyVal.none rest := by
      intro a2
      conv_lhs => unfold harvestAmountScan
      rw [hdt, ok_bind, hq, ok_bind]
    have hrest := fun a2 => ih (fun he hhe => hparse he (List.mem_cons_of_mem e hhe)) a2
    by_cases hm : dt = q
    · rw [hstep a, if_pos hm]
      cases rest with
      | nil =>
        show Except.ok (if pyEq e.amount (PyVal.str "-99.0") = true then PyVal.none else e.amount) =
          Except.ok (if pdToDatetime e.date = pdToDatetime (PyVal.str date) then
            (if pyEq e.amount (PyVal.str "-99.0") = true then PyVal.none else e.amount)
          else PyVal.none)
        rw [hdt, hq, hm, if_pos rfl]
      | cons f t =>
        rw [hrest _, List.getLast?_cons_cons]
        cases hL : (f :: t).getLast? with
        | none => rw [List.getLast?_eq_none_iff] at hL; exact List.noConfusion hL
        | some last => rfl
    · rw [hstep a, if_neg hm]
      cases rest with
      | nil =>
        show Except.ok PyVal.none =
          Except.ok (if pdToDatetime e.date = pdToDatetime (PyVal.str date) then
            (if pyEq e.amount (PyVal.str "-99.0") = true then PyVal.none else e.amount)
          else PyVal.none)
        rw [hdt, hq, if_neg (fun hc => hm (Except.ok.inj hc))]
      | cons f t =>
        rw [hrest _, List.getLast?_cons_cons]
        cases hL : (f :: t).getLast? with
        | none => rw [List.getLast?_eq_none_iff] at hL; exact List.noConfusion hL
        | some last => rfl

/-- Counterexample for C2: the claim says the result is the amount of the
last entry whose date equals the query date.  Querying 2021-05-05 on the
two-harvest document, the first (and therefore last matching) harvest-info
entry has that date and amount 4.0 (first two conjuncts) and the later
entry does not match (third conjunct), yet get_harvest_amount returns
Absent (fourth conjunct): the scan resets its running amount to None on the
non-matching final entry, discarding the earlier match. -/
theorem C2_last_match_counterexample :
    get_harvest_info stTwoHarvests "x" =
      .ok [{ date := .str "2021-05-05", amount := .num 4, event_type := "harvest" },
        { date := .str "2021-06-06", amount := .num 7, event_type := "harvest" }] ∧
    pdToDatetime (.str "2021-05-05") = pdToDatetime (.str "2021-05-05") ∧
    ¬pdToDatetime (.str "2021-06-06") = pdToDatetime (.str "2021-05-05") ∧
    get_harvest_amount stTwoHarvests "x" "2021-05-05" = .ok PyVal.none ∧
    PyVal.none ≠ PyVal.num 4 :=
  ⟨rfl, rfl, by decide, rfl, fun h => PyVal.noConfusion h⟩

/-- C2 as amended: getHarvestAmount(fieldId, date) returns the amount of
the FINAL harvest-info entry when that entry's parsed date equals the
parsed query date (with a string-sentinel amount resolved to Absent), and
Absent otherwise — the scan overwrites its accumulator on every entry, so a
date match followed by any non-matching entry is discarded; in particular
the result is Absent whenever no entry matches, as the claim states. -/
theorem C2_amended_final_entry_decides (st : FOBucketState) (fid date : String)
    (hes : List HarvestEntry) (q : PyDateTime)
    (hinfo : get_harvest_info st fid = .ok hes)
    (hq : pdToDatetime (.str date) = .ok q)
    (hparse : ∀ he ∈ hes, ∃ dt, pdToDatetime he.date = .ok dt) :
    get_harvest_amount st fid date = .ok (match hes.getLast? with
      | Option.none => PyVal.none
      | some e =>
        if pdToDatetime e.date = pdToDatetime (.str date) then
          (if pyEq e.amount (.str "-99.0") then PyVal.none else e.amount)
        else PyVal.none) := by
  unfold get_harvest_amount
  rw [hinfo, ok_bind]
  exact harvestAmountScan_last date q hq hes hparse PyVal.none

/-- Witness for the amended C2: querying the date of the final entry of the
two-harvest document returns that entry's amount 7.0. -/
theorem C2_amended_final_entry_decides_witness :
    get_harvest_amount stTwoHarvests "x" "2021-06-06" = .ok (.num 7) := by
  have h := C2_amended_final_entry_decides stTwoHarvests "x" "2021-06-06"
    [{ date := .str "2021-05-05", amount := .num 4, event_type := "harvest" },
      { date := .str "2021-06-06", amount := .num 7, event_type := "harvest" }]
    ⟨2021, 6, 6, 0, 0, 0⟩ rfl rfl (by
      intro he hhe
      rcases List.mem_cons.mp hhe with rfl | hhe
      · exact ⟨⟨2021, 5, 5, 0, 0, 0⟩, rfl⟩
      · rcases List.mem_singleton.mp hhe with rfl
        exact ⟨⟨2021, 6, 6, 0, 0, 0⟩, rfl⟩)
  exact h.trans (by rfl)

/-- Membership testing on a dict reduces to the association-list lookup. -/
theorem containsKey_dict (l : List (String × PyVal)) (k : String) :
    (PyVal.dict l).containsKey k = .ok (List.lookup k l).isSome := rfl

/-- The match condition reduces to the date comparison when the event
carries a date. -/
theorem eventDateMatches_ok (date : String) (e : PyVal) (dv : PyVal)
    (h : e.getItem "date" = .ok dv) :
    eventDateMatches date e =
      match pdToDatetime dv, pdToDatetime (.str date) with
      | .ok a, .ok b => a == b
      | _, _ => false := by
  unfold eventDateMatches
  rw [h]

/-- The match condition is false when the event has no date. -/
theorem eventDateMatches_err (date : String) (e : PyVal) (err : PyErr)
    (h : e.getItem "date" = .error err) :
    eventDateMatches date e = false := by
  unfold eventDateMatches
  rw [h]

/-- The get_event_type scan is last-match-wins: its result is the
discriminator of the last date-matching event, the accumulator surviving
(events without a date key and non-matching events both leave it
untouched) when no event matches. -/
theorem eventTypeScan_last (date : String) (q : PyDateTime)
    (hq : pdToDatetime (.str date) = .ok q)
    (evs : List PyVal)
    (hdicts : ∀ e ∈ evs, ∃ l, e = PyVal.dict l)
    (hparse : ∀ e ∈ evs, ∀ dv, e.getItem "date" = .ok dv →
      ∃ dt, pdToDatetime dv = .ok dt)
    (hmgmt : ∀ e ∈ evs, eventDateMatches date e = true →
      ∃ t, e.getItem "mgmt_operations_event" = .ok t)
    (et : PyVal) :
    match (evs.filter (eventDateMatches date)).getLast? with
    | Option.none => eventTypeScan date et evs = .ok et
    | some e => ∀ t, e.getItem "mgmt_operations_event" = .ok t →
        eventTypeScan date et evs = .ok t := by
  induction evs generalizing et with
  | nil => exact rfl
  | cons e rest ih =>
    obtain ⟨l, rfl⟩ := hdicts e (List.mem_cons_self e rest)
    have hdicts' := fun x hx => hdicts x (List.mem_cons_of_mem _ hx)
    have hparse' := fun x hx => hparse x (List.mem_cons_of_mem _ hx)
    have hmgmt' := fun x hx => hmgmt x (List.mem_cons_of_mem _ hx)
    have ihr := fun et2 => ih hdicts' hparse' hmgmt' et2
    cases hld : List.lookup "date" l with
    | none =>
      have hnomatch : eventDateMatches date (PyVal.dict l) = false :=
        eventDateMatches_err date _ _ (by rw [getItem_dict, hld])
      have hskip : eventTypeScan date et (PyVal.dict l :: rest) =
          eventTypeScan date et rest := by
        conv_lhs => unfold eventTypeScan
        rw [containsKey_dict, hld, ok_bind]
        rfl
      rw [List.filter_cons_of_neg (by rw [hnomatch]; exact Bool.false_ne_true), hskip]
      exact ihr et
    | some dv =>
      have hgd : (PyVal.dict l).getItem "date" = .ok dv := by
        rw [getItem_dict, hld]
      obtain ⟨dt, hdt⟩ := hparse (PyVal.dict l) (List.mem_cons_self _ rest) dv hgd
      have hmv : eventDateMatches date (PyVal.dict l) = (dt == q) := by
        rw [eventDateMatches_ok date _ dv hgd, hdt, hq]
      by_cases hm : dt = q
      · have hmatch : eventDateMatches date (PyVal.dict l) = true := by
          rw [hmv, hm, beq_self_eq_true]
        obtain ⟨t0, ht0⟩ := hmgmt (PyVal.dict l) (List.mem_cons_self _ rest) hmatch
        have hstep : eventTypeScan date et (PyVal.dict l :: rest) =
            eventTypeScan date t0 rest := by
          conv_lhs => unfold eventTypeScan
          rw [containsKey_dict, hld, ok_bind,
            if_pos (by rfl : ((some dv).isSome : Bool) = true), hgd, ok_bind,
            hdt, ok_bind, hq, ok_bind, if_pos hm, ht0, ok_bind]
        rw [List.filter_cons_of_pos (by rw [hmatch])]
        cases hfr : rest.filter (eventDateMatches date) with
        | nil =>
          rw [show ((PyVal.dict l) :: ([] : List PyVal)).getLast? = some (PyVal.dict l) from rfl]
          intro t ht
          rw [hstep]
          have ht0t : t0 = t := by
            rw [ht0] at ht
            exact Except.ok.inj ht
          subst ht0t
          have h2 := ihr t0
          rw [hfr] at h2
          exact h2
        | cons f fr =>
          rw [List.getLast?_cons_cons]
          have h2 := ihr t0
          rw [hfr] at h2
          intro t ht
          rw [hstep]
          exact h2 t ht
      · have hnomatch : eventDateMatches date (PyVal.dict l) = false := by
          rw [hmv]
          exact beq_eq_false_iff_ne.mpr hm
        have hskip : eventTypeScan date et (PyVal.dict l :: rest) =
            eventTypeScan date et rest := by
          conv_lhs => unfold eventTypeScan
          rw [containsKey_dict, hld, ok_bind,
            if_pos (by rfl : ((some dv).isSome : Bool) = true), hgd, ok_bind,
            hdt, ok_bind, hq, ok_bind, if_neg hm]
        rw [List.filter_cons_of_neg (by rw [hnomatch]; exact Bool.false_ne_true), hskip]
        exact ihr et

/-- Counterexample for C4: the claim says getEventType uses the same
last-match-wins scan semantics as getHarvestAmount.  On the same events
document and the same query date 2021-05-05 — where exactly the first of
the two dated events matches — getEventType retains the match and returns
its discriminator, while getHarvestAmount forgets it and returns Absent:
the two scans disagree, so they do not share semantics (getHarvestAmount
resets its accumulator on every non-matching entry; getEventType leaves it
untouched). -/
theorem C4_same_semantics_counterexample :
    get_event_type stTwoHarvests "x" "2021-05-05" = .ok (.str "harvest") ∧
    get_harvest_amount stTwoHarvests "x" "2021-05-05" = .ok PyVal.none ∧
    get_harvest_info stTwoHarvests "x" =
      .ok [{ date := .str "2021-05-05", amount := .num 4, event_type := "harvest" },
        { date := .str "2021-06-06", amount := .num 7, event_type := "harvest" }] ∧
    PyVal.none ≠ PyVal.str "harvest" :=
  ⟨rfl, rfl, rfl, fun h => PyVal.noConfusion h⟩

/-- C4 as amended: getEventType(fieldId, date) performs a genuine
last-match-wins scan over all events of any discriminator (unlike
getHarvestAmount, whose scan resets on non-matching entries): it returns
the discriminator of the last event whose parsed date equals the parsed
query date, events without a date field are skipped (not treated as
non-matches), and the result is Absent when no event's date matches. -/
theorem C4_amended_event_type_last_match (st : FOBucketState)
    (fid date : String) (evs : List PyVal) (q : PyDateTime)
    (hev : get_events st fid = some (mkEventsDoc evs))
    (hq : pdToDatetime (.str date) = .ok q)
    (hdicts : ∀ e ∈ evs, ∃ l, e = PyVal.dict l)
    (hparse : ∀ e ∈ evs, ∀ dv, e.getItem "date" = .ok dv →
      ∃ dt, pdToDatetime dv = .ok dt)
    (hmgmt : ∀ e ∈ evs, eventDateMatches date e = true →
      ∃ t, e.getItem "mgmt_operations_event" = .ok t) :
    match (evs.filter (eventDateMatches date)).getLast? with
    | Option.none => get_event_type st fid date = .ok PyVal.none
    | some e => ∀ t, e.getItem "mgmt_operations_event" = .ok t →
        get_event_type st fid date = .ok t := by
  rw [get_event_type_events st fid date evs hev]
  exact eventTypeScan_last date q hq evs hdicts hparse hmgmt PyVal.none

/-- Witness for the amended C4: on the two-harvest document with query date
2021-05-05, only the first event matches, and getEventType returns its
discriminator. -/
theorem C4_amended_event_type_last_match_witness :
    get_event_type stTwoHarvests "x" "2021-05-05" = .ok (.str "harvest") := by
  have h := C4_amended_event_type_last_match stTwoHarvests "x" "2021-05-05"
    [evHarvMay, evHarvJun] ⟨2021, 5, 5, 0, 0, 0⟩ rfl rfl
    (by
      intro e he
      rcases List.mem_cons.mp he with rfl | he
      · exact ⟨_, rfl⟩
      · rcases List.mem_singleton.mp he with rfl
        exact ⟨_, rfl⟩)
    (by
      intro e he dv hdv
      rcases List.mem_cons.mp he with rfl | he
      · have h2 : Except.ok (PyVal.str "2021-05-05") = Except.ok dv := hdv
        injection h2 with h3
        subst h3
        exact ⟨⟨2021, 5, 5, 0, 0, 0⟩, rfl⟩
      · rcases List.mem_singleton.mp he with rfl
        have h2 : Except.ok (PyVal.str "2021-06-06") = Except.ok dv := hdv
        injection h2 with h3
        subst h3
        exact ⟨⟨2021, 6, 6, 0, 0, 0⟩, rfl⟩)
    (by
      intro e he hmatch
      rcases List.mem_cons.mp he with rfl | he
      · exact ⟨.str "harvest", rfl⟩
      · rcases List.mem_singleton.mp he with rfl
        exact ⟨.str "harvest", rfl⟩)
  exact h (.str "harvest") rfl
